import Mathlib

/-!
Shallow embedding of the conversation routing and escalation engine of
`server.js` (HayDay chat system): the knowledge matcher (`ChatBotBrain`),
the AI escalation processor (`AIProcessor`), the Telegram auth-code
verifier (`TelegramManager`), and the HTTP handlers for chat send,
polling, admin verify-code, takeover, respond, and the daily analytics
buckets.  Confidences are modelled as rationals, timestamps as naturals,
and the JSON-file stores as explicit state values threaded through the
operations.
-/

namespace HayDay

/-!
Rational arithmetic helpers.  Mathlib marks `Rat.add`, `Rat.mul`,
`Rat.sub` and `Rat.inv` irreducible, so the embedding computes with
explicit numerator/denominator forms (`mkRat`, `Rat.divInt`), which the
kernel can evaluate on concrete inputs.  The bridge lemmas `qadd_eq`,
`qsub_eq`, `qmul_eq` and `qdiv_eq` show each helper agrees with the
ordinary field operation on `ℚ`, so theorems can be read with the usual
arithmetic.
-/

/-- Rational addition in explicit form; equals `a + b` by `qadd_eq`. -/
def qadd (a b : ℚ) : ℚ := mkRat (a.num * b.den + b.num * a.den) (a.den * b.den)

/-- Rational subtraction in explicit form; equals `a - b` by `qsub_eq`. -/
def qsub (a b : ℚ) : ℚ := mkRat (a.num * b.den - b.num * a.den) (a.den * b.den)

/-- Rational multiplication in explicit form; equals `a * b` by `qmul_eq`. -/
def qmul (a b : ℚ) : ℚ := mkRat (a.num * b.num) (a.den * b.den)

/-- Rational division in explicit form; equals `a / b` by `qdiv_eq`. -/
def qdiv (a b : ℚ) : ℚ := Rat.divInt (a.num * b.den) (a.den * b.num)

theorem qadd_eq (a b : ℚ) : qadd a b = a + b := (Rat.add_def' a b).symm

theorem qsub_eq (a b : ℚ) : qsub a b = a - b := (Rat.sub_def' a b).symm

theorem qmul_eq (a b : ℚ) : qmul a b = a * b := by
  rw [qmul, ← Rat.mkRat_mul_mkRat, Rat.mkRat_self, Rat.mkRat_self]

theorem qdiv_eq (a b : ℚ) : qdiv a b = a / b := (Rat.div_def' a b).symm

/-- Byte-for-byte model of `Char.toLower` as used for the JS
`toLowerCase` call in `analyzeMessage`; both lower only basic latin
letters, and every non-ASCII character appearing in the repository
data is already lower case. -/
def lowChar (c : Char) : Char := c.toLower

/-- Lower-cased character list of a string (JS `s.toLowerCase()`). -/
def lowData (s : String) : List Char := s.data.map lowChar

/-- Boolean prefix test on character lists. -/
def prefB : List Char → List Char → Bool
  | [], _ => true
  | _ :: _, [] => false
  | a :: as, b :: bs => a == b && prefB as bs

/-- Boolean substring (contiguous) test: JS `hay.includes(needle)`. -/
def subB (needle : List Char) : List Char → Bool
  | [] => needle.isEmpty
  | c :: t => prefB needle (c :: t) || subB needle t

/-- A knowledge-base pattern (`knowledge-base.json` entry). -/
structure Pattern where
  keywords : List String
  response : String
  confidence : ℚ
  usage : ℕ
deriving Repr, DecidableEq

/-- Keyword hit count of a message against one pattern: the loop
`for (const keyword of pattern.keywords) if (lowerMessage.includes(...)) score += 1`. -/
def kwScore (msg : List Char) (p : Pattern) : ℕ :=
  (p.keywords.filter (fun kw => subB (lowData kw) msg)).length

/-- Weighted confidence of a pattern for a message:
`(score / pattern.keywords.length) * pattern.confidence`. -/
def weightedConf (message : String) (p : Pattern) : ℚ :=
  qmul (qdiv (kwScore (lowData message) p : ℚ) (p.keywords.length : ℚ)) p.confidence

/-- `weightedConf` in ordinary field arithmetic. -/
theorem weightedConf_eq (message : String) (p : Pattern) :
    weightedConf message p =
      (kwScore (lowData message) p : ℚ) / (p.keywords.length : ℚ) * p.confidence := by
  rw [weightedConf, qdiv_eq, qmul_eq]

/-- Result record of `analyzeMessage`. -/
structure Analysis where
  matched : Option Pattern
  confidence : ℚ
  shouldEscalate : Bool
deriving Repr, DecidableEq

/-- One iteration of the `analyzeMessage` loop: keep the running best
`(bestMatch, highestScore)`, replacing it only when this pattern has a
positive keyword score and a strictly higher weighted confidence. -/
def analyzeStep (message : String) (acc : Option Pattern × ℚ) (p : Pattern) :
    Option Pattern × ℚ :=
  if 0 < kwScore (lowData message) p ∧ acc.2 < weightedConf message p then
    (some p, weightedConf message p)
  else acc

/-- `ChatBotBrain.analyzeMessage`: fold the loop over the knowledge base
starting from `(null, 0)` and compare the best score to the threshold. -/
def analyzeMessage (kb : List Pattern) (threshold : ℚ) (message : String) :
    Analysis :=
  let r := kb.foldl (analyzeStep message) (none, 0)
  ⟨r.1, r.2, decide (r.2 < threshold)⟩

/-- The five bootstrap patterns `ChatBotBrain.loadKnowledgeBase` installs
when the knowledge base file is empty. -/
def defaultKnowledgeBase : List Pattern :=
  [ ⟨["merhaba", "selam", "hey", "hi"],
     "Merhaba! HayDay Malzemeleri destek ekibine hoş geldiniz. Size nasıl yardımcı olabilirim?",
     mkRat 9 10, 0⟩,
    ⟨["altın", "para", "transfer"],
     "Altın transferi hakkında detaylı bilgi için \"Sorular & İletişim\" sayfamızı ziyaret edebilirsiniz. Size yardımcı olmak için buradayım!",
     mkRat 4 5, 0⟩,
    ⟨["fiyat", "ücret", "ne kadar"],
     "Ürün fiyatları için \"Ürün Listenizi Oluşturun\" sayfasını inceleyebilirsiniz. Güncel fiyatlarımız orada yer almaktadır.",
     mkRat 4 5, 0⟩,
    ⟨["depolama", "ağıl", "ambar"],
     "Depolama hesaplamaları için özel hesaplayıcımızı kullanabilirsiniz: \"Depolama Hesaplayıcısı\" sayfamızı ziyaret edin.",
     mkRat 4 5, 0⟩,
    ⟨["makine", "üretim", "seviye"],
     "Makine bilgileri ve seviyeleri hakkında \"Makineler\" sayfamızdan detaylı bilgi alabilirsiniz.",
     mkRat 4 5, 0⟩ ]

/-- Confidence nudge of `ChatBotBrain.updatePattern`: plus `0.05` capped
at `1.0` on positive feedback, minus `0.05` floored at `0.1` on negative
feedback, unchanged otherwise. -/
def nudge (c : ℚ) (feedback : String) : ℚ :=
  if feedback = "positive" then min 1 (qadd c (mkRat 1 20))
  else if feedback = "negative" then max (mkRat 1 10) (qsub c (mkRat 1 20))
  else c

/-- `ChatBotBrain.updatePattern`: find the first pattern with the given
keyword list (the `findIndex` over stringified keywords), bump its usage
and nudge its confidence; leave the knowledge base unchanged when no
pattern has those keywords. -/
def updatePattern : List Pattern → List String → String → List Pattern
  | [], _, _ => []
  | p :: rest, kws, feedback =>
    if p.keywords = kws then
      { p with usage := p.usage + 1, confidence := nudge p.confidence feedback } :: rest
    else p :: updatePattern rest kws feedback

/-- Result record of `AIProcessor.processMessage`. -/
structure AIResult where
  response : String
  confidence : ℚ
  tokensUsed : ℕ
deriving Repr, DecidableEq

/-- The apologetic fallback text returned when the OpenAI call throws. -/
def fallbackResponse : String :=
  "Üzgünüm, şu anda teknik bir sorun yaşıyorum. Lütfen biraz sonra tekrar deneyin veya Sorular & İletişim sayfamızdan bize ulaşın."

/-- `AIProcessor.processMessage`: the external completion call is the
oracle argument — `Except.ok (content, totalTokens)` models a completion
that returns, `Except.error e` models any thrown failure (timeout,
quota, network).  A successful call yields the generated text with
confidence `0.85`; any failure is caught and turned into the fixed
fallback text with confidence `0.3`. -/
def processMessage (oracle : String → Except String (String × ℕ)) (message : String) :
    AIResult :=
  match oracle message with
  | .ok (content, tokens) => ⟨content, mkRat 17 20, tokens⟩
  | .error _ => ⟨fallbackResponse, mkRat 3 10, 0⟩

/-- A chat-log entry (`chat-log.json` element). -/
structure Message where
  timestamp : ℕ
  clientId : String
  role : String
  content : String
  confidence : Option ℚ
  adminId : Option String
deriving Repr, DecidableEq

/-- Outcome of the `POST /api/chat/send` handler body: the chat log it
writes back and the JSON response fields. -/
structure SendResult where
  log : List Message
  reply : String
  role : String
  confidence : ℚ
deriving Repr, DecidableEq

/-- The `confidence` stored in the response message and echoed in the
JSON reply: JS `botAnalysis.confidence || 0.85` (`0` is falsy). -/
def storedConfidence (a : Analysis) : ℚ :=
  if a.confidence = 0 then mkRat 17 20 else a.confidence

/-- The `if (!botAnalysis.shouldEscalate && botAnalysis.match)` branch of
the send handler: answer from the matched pattern as `chatbot`, or with
the escalation result as `ai`. -/
def chooseResponse (a : Analysis) (aiResponse : String) : String × String :=
  match a.shouldEscalate, a.matched with
  | false, some p => (p.response, "chatbot")
  | _, _ => (aiResponse, "ai")

/-- Body of the `POST /api/chat/send` handler, given the chat-log
snapshot it read (`readJSONFile(FILES.chatLog)`): push the user message,
analyze it, answer from the matched pattern when the analysis is
confident, otherwise escalate to `processMessage`, push the response
message, and write the whole grown snapshot back.  `tsUser`/`tsBot` are
the two `Date.now()` reads. -/
def sendCompute (kb : List Pattern) (threshold : ℚ)
    (oracle : String → Except String (String × ℕ)) (snapshot : List Message)
    (clientId message : String) (tsUser tsBot : ℕ) : SendResult :=
  let userMsg : Message := ⟨tsUser, clientId, "user", message, none, none⟩
  let a := analyzeMessage kb threshold message
  let rr := chooseResponse a (processMessage oracle message).response
  let botMsg : Message := ⟨tsBot, clientId, rr.2, rr.1, some (storedConfidence a), none⟩
  ⟨snapshot ++ [userMsg, botMsg], rr.1, rr.2, storedConfidence a⟩

/-- `GET /api/chat/poll/:clientId`: the messages of that client strictly
newer than the watermark, and the new watermark (`Math.max` of the
returned timestamps, or `after` unchanged when none qualify). -/
def poll (chatLog : List Message) (clientId : String) (after : ℕ) :
    List Message × ℕ :=
  let newMessages := chatLog.filter fun m =>
    m.clientId == clientId && after < m.timestamp
  (newMessages,
   if newMessages.isEmpty then after
   else (newMessages.map (fun m => m.timestamp)).foldl max 0)

/-- A pending one-time code (`TelegramManager.authCodes` entry). -/
structure AuthData where
  code : String
  expires : ℕ
deriving Repr, DecidableEq

/-- The pending-code table, keyed by Telegram identity. -/
def AuthCodes := String → Option AuthData

/-- The body of `TelegramManager.sendAuthCode` that records the code:
store `{code, expires: now + 5 minutes}` under the identity. -/
def storeAuthCode (codes : AuthCodes) (telegramId code : String) (now : ℕ) :
    AuthCodes :=
  fun k => if k = telegramId then some ⟨code, now + 5 * 60 * 1000⟩ else codes k

/-- `TelegramManager.verifyAuthCode`: `false` when no code is pending;
`false` (deleting the entry) when the pending code is past expiry;
`true` (deleting the entry — single use) on a match; `false` (entry
kept) on a mismatch.  Returns the flag and the updated table. -/
def verifyAuthCode (codes : AuthCodes) (now : ℕ) (telegramId code : String) :
    Bool × AuthCodes :=
  match codes telegramId with
  | none => (false, codes)
  | some a =>
    if a.expires < now then
      (false, fun k => if k = telegramId then none else codes k)
    else if a.code = code then
      (true, fun k => if k = telegramId then none else codes k)
    else (false, codes)

/-- An admin session (`admin-sessions.json` entry). -/
structure Session where
  telegramId : String
  created : ℕ
  expires : ℕ
deriving Repr, DecidableEq

/-- The admin-session table, keyed by opaque token. -/
def Sessions := String → Option Session

/-- Body of the `POST /api/admin/verify-code` handler after the identity
check: run `verifyAuthCode`; on success mint the session under the fresh
uuid `token` with a 24-hour expiry and answer the token, otherwise
answer the single 400 payload `Invalid or expired code`. -/
def verifyCodeEndpoint (codes : AuthCodes) (sessions : Sessions) (now : ℕ)
    (telegramId code token : String) :
    Except String (String × Sessions) × AuthCodes :=
  let r := verifyAuthCode codes now telegramId code
  if r.1 then
    (.ok (token, fun k =>
        if k = token then some ⟨telegramId, now, now + 24 * 60 * 60 * 1000⟩
        else sessions k),
     r.2)
  else (.error "Invalid or expired code", r.2)

/-- An `analytics.adminTakeovers` record. -/
structure TakeoverRec where
  timestamp : ℕ
  adminId : String
  status : String
deriving Repr, DecidableEq

/-- The takeover table, keyed by conversation (client) identifier. -/
def Takeovers := String → Option TakeoverRec

/-- The greeting appended to the chat log by a successful takeover. -/
def takeoverGreeting (conversationId : String) (now : ℕ) : Message :=
  ⟨now, conversationId, "admin",
   "Merhaba! Ben gerçek bir destek uzmanıyım. Size nasıl yardımcı olabilirim?",
   some 1, none⟩

/-- Body of the `POST /api/admin/takeover` handler: reject with 401
`Unauthorized` (touching nothing) unless the bearer token names a
session with `expires ≥ now`; otherwise overwrite the conversation's
takeover record with a fresh active one and append the admin greeting
to the chat log. -/
def takeover (sessions : Sessions) (takeovers : Takeovers)
    (chatLog : List Message) (now : ℕ) (token conversationId : String) :
    Except String (Takeovers × List Message) :=
  match sessions token with
  | none => .error "Unauthorized"
  | some s =>
    if s.expires < now then .error "Unauthorized"
    else
      .ok (fun k =>
             if k = conversationId then some ⟨now, s.telegramId, "active"⟩
             else takeovers k,
           chatLog ++ [takeoverGreeting conversationId now])

/-- A `DailyAnalytics` bucket.  The JS counters are plain numbers, so
they are modelled as integers and their non-negativity is proved, not
assumed. -/
structure Bucket where
  total : ℤ
  chatbot : ℤ
  ai : ℤ
  admin : ℤ
deriving Repr, DecidableEq

/-- The per-day analytics table. -/
def Analytics := String → Option Bucket

/-- Increment the counter named by `role` (the `analytics[today][role] += 1`
line; `role` is `chatbot`/`ai` in the send handler, `admin` in the
respond handler). -/
def bumpRole (b : Bucket) (role : String) : Bucket :=
  if role = "chatbot" then { b with chatbot := b.chatbot + 1 }
  else if role = "ai" then { b with ai := b.ai + 1 }
  else if role = "admin" then { b with admin := b.admin + 1 }
  else b

/-- Analytics update shared by the send and respond handlers: create the
day's bucket at zero when absent, then `total += 1` and `[role] += 1`. -/
def updateAnalytics (analytics : Analytics) (today role : String) : Analytics :=
  fun d =>
    if d = today then
      let b := (analytics today).getD ⟨0, 0, 0, 0⟩
      some (bumpRole { b with total := b.total + 1 } role)
    else analytics d

/-- Body of the `POST /api/admin/respond` handler after session
validation: append the admin message and bump the `admin` analytics
counter. -/
def adminRespond (chatLog : List Message) (analytics : Analytics)
    (today conversationId text adminId : String) (now : ℕ) :
    List Message × Analytics :=
  (chatLog ++ [⟨now, conversationId, "admin", text, some 1, some adminId⟩],
   updateAnalytics analytics today "admin")

/-- The pattern of the specification's first scenario. -/
def r1Pattern : Pattern := ⟨["altın", "fiyat"], "R1", mkRat 4 5, 0⟩

/-!  Helper lemmas about the `analyzeMessage` fold. -/

theorem weightedConf_eq_zero (msg : String) (p : Pattern)
    (hz : kwScore (lowData msg) p = 0) : weightedConf msg p = 0 := by
  rw [weightedConf_eq, hz]
  simp

/-- Invariant of the `analyzeMessage` loop: starting from a non-negative
running best, the fold either changes nothing (and then every pattern in
the list scores at most the running best), or ends on some pattern `p`
of the list whose weighted confidence strictly exceeds the start, with
every pattern before `p` strictly below it and every pattern after `p`
at most it. -/
theorem foldl_analyzeStep_spec (msg : String) (kb : List Pattern) :
    ∀ (b : Option Pattern) (h : ℚ), 0 ≤ h →
      (kb.foldl (analyzeStep msg) (b, h) = (b, h)
          ∧ ∀ q ∈ kb, weightedConf msg q ≤ h)
      ∨ (∃ l₁ p l₂, kb = l₁ ++ p :: l₂
          ∧ kb.foldl (analyzeStep msg) (b, h) = (some p, weightedConf msg p)
          ∧ h < weightedConf msg p
          ∧ (∀ q ∈ l₁, weightedConf msg q < weightedConf msg p)
          ∧ (∀ q ∈ l₂, weightedConf msg q ≤ weightedConf msg p)) := by
  induction kb with
  | nil =>
    intro b h _
    left
    exact ⟨rfl, by simp⟩
  | cons q rest ih =>
    intro b h h0
    by_cases hc : 0 < kwScore (lowData msg) q ∧ h < weightedConf msg q
    · have hstep : analyzeStep msg (b, h) q = (some q, weightedConf msg q) := by
        rw [analyzeStep, if_pos hc]
      rw [List.foldl_cons, hstep]
      have hw0 : (0 : ℚ) ≤ weightedConf msg q := le_of_lt (lt_of_le_of_lt h0 hc.2)
      rcases ih (some q) (weightedConf msg q) hw0 with
        ⟨heq, hall⟩ | ⟨l₁, p, l₂, hsplit, heq, hlt, hl₁, hl₂⟩
      · right
        exact ⟨[], q, rest, rfl, heq, hc.2, by simp, hall⟩
      · right
        refine ⟨q :: l₁, p, l₂, by rw [hsplit, List.cons_append], heq, lt_trans hc.2 hlt, ?_, hl₂⟩
        intro x hx
        rcases List.mem_cons.mp hx with hxq | hx'
        · rw [hxq]
          exact hlt
        · exact hl₁ x hx'
    · have hwq : weightedConf msg q ≤ h := by
        rcases Nat.eq_zero_or_pos (kwScore (lowData msg) q) with hz | hpos
        · rw [weightedConf_eq_zero msg q hz]
          exact h0
        · rcases not_and_or.mp hc with hns | hnl
          · exact absurd hpos hns
          · exact le_of_not_lt hnl
      have hstep : analyzeStep msg (b, h) q = (b, h) := by
        rw [analyzeStep, if_neg hc]
      rw [List.foldl_cons, hstep]
      rcases ih b h h0 with
        ⟨heq, hall⟩ | ⟨l₁, p, l₂, hsplit, heq, hlt, hl₁, hl₂⟩
      · left
        refine ⟨heq, ?_⟩
        intro x hx
        rcases List.mem_cons.mp hx with hxq | hx'
        · rw [hxq]
          exact hwq
        · exact hall x hx'
      · right
        refine ⟨q :: l₁, p, l₂, by rw [hsplit, List.cons_append], heq, hlt, ?_, hl₂⟩
        intro x hx
        rcases List.mem_cons.mp hx with hxq | hx'
        · rw [hxq]
          exact lt_of_le_of_lt hwq hlt
        · exact hl₁ x hx'

/-- **C1**: for every message and pattern set, `analyzeMessage` returns
the weighted-confidence maximizer: each pattern's weighted confidence
`(matching keywords / keywords) * pattern.confidence` is at most the
returned confidence; the matched pattern, when present, is the first
pattern attaining the returned confidence (all earlier patterns score
strictly lower, so ties keep the first pattern in iteration order);
`shouldEscalate` holds exactly when the returned confidence is strictly
below the threshold; and on the message `altın fiyat nedir` against the
pattern `{keywords:[altın, fiyat], response:R1, confidence:0.8}` with
threshold `0.7`, the returned confidence is `0.8`, no escalation
happens, and the send handler replies `R1` from the chatbot tier. -/
theorem C1_matcher_maximizes_weighted_confidence
    (kb : List Pattern) (thr : ℚ) (msg : String) :
    (∀ p ∈ kb, weightedConf msg p ≤ (analyzeMessage kb thr msg).confidence)
    ∧ ((analyzeMessage kb thr msg).shouldEscalate = true ↔
        (analyzeMessage kb thr msg).confidence < thr)
    ∧ (∀ p, (analyzeMessage kb thr msg).matched = some p →
        ∃ l₁ l₂, kb = l₁ ++ p :: l₂
          ∧ weightedConf msg p = (analyzeMessage kb thr msg).confidence
          ∧ ∀ q ∈ l₁, weightedConf msg q < (analyzeMessage kb thr msg).confidence)
    ∧ analyzeMessage [r1Pattern] (mkRat 7 10) "altın fiyat nedir"
        = ⟨some r1Pattern, mkRat 4 5, false⟩
    ∧ (∀ oracle snapshot cid tsU tsB,
        (sendCompute [r1Pattern] (mkRat 7 10) oracle snapshot cid
            "altın fiyat nedir" tsU tsB).reply = "R1"
        ∧ (sendCompute [r1Pattern] (mkRat 7 10) oracle snapshot cid
            "altın fiyat nedir" tsU tsB).role = "chatbot") := by
  have hconf : (analyzeMessage kb thr msg).confidence
      = (kb.foldl (analyzeStep msg) (none, 0)).2 := rfl
  have hmat : (analyzeMessage kb thr msg).matched
      = (kb.foldl (analyzeStep msg) (none, 0)).1 := rfl
  have hesc : (analyzeMessage kb thr msg).shouldEscalate
      = decide ((kb.foldl (analyzeStep msg) (none, 0)).2 < thr) := rfl
  refine ⟨?_, ?_, ?_, by decide, ?_⟩
  · intro p hp
    rcases foldl_analyzeStep_spec msg kb none 0 le_rfl with
      ⟨heq, hall⟩ | ⟨l₁, pp, l₂, hsplit, heq, hlt, hl₁, hl₂⟩
    · rw [hconf, heq]
      exact hall p hp
    · rw [hconf, heq]
      rw [hsplit] at hp
      rcases List.mem_append.mp hp with h1 | h2
      · exact le_of_lt (hl₁ p h1)
      · rcases List.mem_cons.mp h2 with hpp | h3
        · rw [hpp]
        · exact hl₂ p h3
  · rw [hesc, hconf]
    exact decide_eq_true_iff
  · intro p hp
    rcases foldl_analyzeStep_spec msg kb none 0 le_rfl with
      ⟨heq, hall⟩ | ⟨l₁, pp, l₂, hsplit, heq, hlt, hl₁, hl₂⟩
    · rw [hmat, heq] at hp
      exact absurd hp (by simp)
    · rw [hmat, heq] at hp
      obtain rfl : pp = p := Option.some.inj hp
      refine ⟨l₁, l₂, hsplit, ?_, ?_⟩
      · rw [hconf, heq]
      · intro x hx
        rw [hconf, heq]
        exact hl₁ x hx
  · intro oracle snapshot cid tsU tsB
    have hA : analyzeMessage [r1Pattern] (mkRat 7 10) "altın fiyat nedir"
        = ⟨some r1Pattern, mkRat 4 5, false⟩ := by decide
    constructor
    · show (chooseResponse (analyzeMessage [r1Pattern] (mkRat 7 10) "altın fiyat nedir")
        (processMessage oracle "altın fiyat nedir").response).1 = "R1"
      rw [hA]
      rfl
    · show (chooseResponse (analyzeMessage [r1Pattern] (mkRat 7 10) "altın fiyat nedir")
        (processMessage oracle "altın fiyat nedir").response).2 = "chatbot"
      rw [hA]
      rfl

theorem C1_matcher_maximizes_weighted_confidence_witness :
    (weightedConf "altın fiyat nedir" r1Pattern
       ≤ (analyzeMessage [r1Pattern] (mkRat 7 10) "altın fiyat nedir").confidence)
    ∧ ∃ l₁ l₂, [r1Pattern] = l₁ ++ r1Pattern :: l₂
        ∧ weightedConf "altın fiyat nedir" r1Pattern
            = (analyzeMessage [r1Pattern] (mkRat 7 10) "altın fiyat nedir").confidence
        ∧ ∀ q ∈ l₁, weightedConf "altın fiyat nedir" q
            < (analyzeMessage [r1Pattern] (mkRat 7 10) "altın fiyat nedir").confidence :=
  ⟨(C1_matcher_maximizes_weighted_confidence [r1Pattern] (mkRat 7 10)
      "altın fiyat nedir").1 r1Pattern (List.mem_singleton.mpr rfl),
   (C1_matcher_maximizes_weighted_confidence [r1Pattern] (mkRat 7 10)
      "altın fiyat nedir").2.2.1 r1Pattern (by decide)⟩

/-- **C7**: when the pattern set is empty or no keyword of any pattern
occurs case-insensitively in the message, `analyzeMessage` returns no
match, confidence `0` and `shouldEscalate = true` (for any positive
threshold); in particular the message `kargo ne zaman gelir` against the
default pattern set yields `(null, 0, escalate)` and the send handler
routes it to the AI tier. -/
theorem C7_no_keyword_escalates (kb : List Pattern) (thr : ℚ) (msg : String)
    (hthr : 0 < thr)
    (hmiss : ∀ p ∈ kb, ∀ kw ∈ p.keywords, subB (lowData kw) (lowData msg) = false) :
    analyzeMessage kb thr msg = ⟨none, 0, true⟩
    ∧ analyzeMessage defaultKnowledgeBase (mkRat 7 10) "kargo ne zaman gelir"
        = ⟨none, 0, true⟩
    ∧ ∀ oracle snapshot cid tsU tsB,
        (sendCompute defaultKnowledgeBase (mkRat 7 10) oracle snapshot cid
          "kargo ne zaman gelir" tsU tsB).role = "ai" := by
  refine ⟨?_, by decide, ?_⟩
  · have hzero : ∀ p ∈ kb, kwScore (lowData msg) p = 0 := by
      intro p hp
      have hnil : p.keywords.filter (fun kw => subB (lowData kw) (lowData msg)) = [] := by
        apply List.filter_eq_nil_iff.mpr
        intro kw hkw
        simp [hmiss p hp kw hkw]
      rw [kwScore, hnil]
      rfl
    rcases foldl_analyzeStep_spec msg kb none 0 le_rfl with
      ⟨heq, _⟩ | ⟨l₁, p, l₂, hsplit, heq, hlt, _, _⟩
    · show Analysis.mk (kb.foldl (analyzeStep msg) (none, 0)).1
        (kb.foldl (analyzeStep msg) (none, 0)).2
        (decide ((kb.foldl (analyzeStep msg) (none, 0)).2 < thr)) = ⟨none, 0, true⟩
      rw [heq]
      simp [decide_eq_true_iff, hthr]
    · have hp0 : weightedConf msg p = 0 :=
        weightedConf_eq_zero msg p
          (hzero p (by
            rw [hsplit]
            exact List.mem_append.mpr (Or.inr (List.mem_cons_self p l₂))))
      rw [hp0] at hlt
      exact absurd hlt (lt_irrefl 0)
  · intro oracle snapshot cid tsU tsB
    have hA : analyzeMessage defaultKnowledgeBase (mkRat 7 10) "kargo ne zaman gelir"
        = ⟨none, 0, true⟩ := by decide
    show (chooseResponse
        (analyzeMessage defaultKnowledgeBase (mkRat 7 10) "kargo ne zaman gelir")
        (processMessage oracle "kargo ne zaman gelir").response).2 = "ai"
    rw [hA]
    rfl

theorem C7_no_keyword_escalates_witness :
    analyzeMessage defaultKnowledgeBase (mkRat 7 10) "kargo ne zaman gelir"
      = ⟨none, 0, true⟩ :=
  (C7_no_keyword_escalates defaultKnowledgeBase (mkRat 7 10) "kargo ne zaman gelir"
    (by decide) (by decide)).1

/-!  Helper lemmas for the polling watermark (`Math.max` as a fold). -/

theorem le_foldl_max (l : List ℕ) : ∀ b : ℕ, b ≤ l.foldl max b := by
  induction l with
  | nil => intro b; exact le_rfl
  | cons x t ih => intro b; exact le_trans (le_max_left b x) (ih (max b x))

theorem foldl_max_ge_mem (l : List ℕ) : ∀ b : ℕ, ∀ x ∈ l, x ≤ l.foldl max b := by
  induction l with
  | nil =>
    intro b x hx
    cases hx
  | cons y t ih =>
    intro b x hx
    rcases List.mem_cons.mp hx with hxy | hx'
    · rw [hxy]
      exact le_trans (le_max_right b y) (le_foldl_max t (max b y))
    · exact ih (max b y) x hx'

theorem foldl_max_eq_or_mem (l : List ℕ) : ∀ b : ℕ, l.foldl max b = b ∨ l.foldl max b ∈ l := by
  induction l with
  | nil => intro b; left; rfl
  | cons y t ih =>
    intro b
    rw [List.foldl_cons]
    rcases ih (max b y) with h | h
    · rcases max_choice b y with hb | hy
      · left
        rw [h, hb]
      · right
        rw [h, hy]
        exact List.mem_cons_self y t
    · right
      exact List.mem_cons.mpr (Or.inr h)

/-- A two-client concrete chat log used to witness the polling contract. -/
def demoLog : List Message :=
  [ ⟨5, "c", "user", "u1", none, none⟩,
    ⟨3, "d", "user", "u2", none, none⟩,
    ⟨9, "c", "chatbot", "b1", some (mkRat 4 5), none⟩,
    ⟨1, "c", "user", "u0", none, none⟩ ]

/-- **C2**: `poll` returns exactly the client's messages strictly newer
than the watermark, with `lastTimestamp` the maximum returned timestamp
(or the watermark itself when nothing qualifies), and is a pure function
of the log, so repeated polls over an unchanged log agree. -/
theorem C2_poll_strictly_newer (log : List Message) (c : String) (a : ℕ) :
    (∀ m, m ∈ (poll log c a).1 ↔ m ∈ log ∧ m.clientId = c ∧ a < m.timestamp)
    ∧ ((poll log c a).1 = [] → (poll log c a).2 = a)
    ∧ ((poll log c a).1 ≠ [] →
        (poll log c a).2 ∈ (poll log c a).1.map (fun m => m.timestamp)
        ∧ ∀ m ∈ (poll log c a).1, m.timestamp ≤ (poll log c a).2)
    ∧ (∀ r₁ r₂, r₁ = poll log c a → r₂ = poll log c a → r₁ = r₂) := by
  have h1 : (poll log c a).1
      = log.filter (fun m => m.clientId == c && decide (a < m.timestamp)) := rfl
  have h2 : (poll log c a).2
      = (if (poll log c a).1.isEmpty then a
         else ((poll log c a).1.map (fun m => m.timestamp)).foldl max 0) := rfl
  refine ⟨?_, ?_, ?_, ?_⟩
  · intro m
    rw [h1, List.mem_filter]
    constructor
    · rintro ⟨hm, hcond⟩
      rw [Bool.and_eq_true] at hcond
      exact ⟨hm, eq_of_beq hcond.1, of_decide_eq_true hcond.2⟩
    · rintro ⟨hm, hcl, ht⟩
      refine ⟨hm, ?_⟩
      rw [Bool.and_eq_true]
      exact ⟨beq_iff_eq.mpr hcl, decide_eq_true_iff.mpr ht⟩
  · intro h
    rw [h2, h]
    rfl
  · intro h
    have hne : (poll log c a).1.isEmpty = false := by
      rcases hfe : (poll log c a).1 with _ | ⟨x, t⟩
      · exact absurd hfe h
      · rfl
    have h2' : (poll log c a).2
        = ((poll log c a).1.map (fun m => m.timestamp)).foldl max 0 := by
      rw [h2, hne]
      rfl
    constructor
    · rw [h2']
      rcases foldl_max_eq_or_mem ((poll log c a).1.map (fun m => m.timestamp)) 0 with h0 | hm
      · rcases hfe : (poll log c a).1 with _ | ⟨m₀, t⟩
        · exact absurd hfe h
        · have hle : m₀.timestamp ≤ 0 := by
            have hmem : m₀.timestamp ∈ (poll log c a).1.map (fun m => m.timestamp) := by
              rw [hfe]
              exact List.mem_map.mpr ⟨m₀, List.mem_cons_self m₀ t, rfl⟩
            have := foldl_max_ge_mem ((poll log c a).1.map (fun m => m.timestamp)) 0
              m₀.timestamp hmem
            rw [h0] at this
            exact this
          have hz : m₀.timestamp = 0 := Nat.le_zero.mp hle
          rw [hfe] at h0
          rw [h0]
          exact List.mem_map.mpr ⟨m₀, List.mem_cons_self m₀ t, hz⟩
      · exact hm
    · intro m hm
      rw [h2']
      exact foldl_max_ge_mem _ 0 m.timestamp (List.mem_map.mpr ⟨m, hm, rfl⟩)
  · intro r₁ r₂ e₁ e₂
    rw [e₁, e₂]

theorem C2_poll_strictly_newer_witness :
    ((poll demoLog "c" 2).2 ∈ (poll demoLog "c" 2).1.map (fun m => m.timestamp)
     ∧ ∀ m ∈ (poll demoLog "c" 2).1, m.timestamp ≤ (poll demoLog "c" 2).2)
    ∧ (poll demoLog "x" 99).2 = 99 :=
  ⟨(C2_poll_strictly_newer demoLog "c" 2).2.2.1 (by decide),
   (C2_poll_strictly_newer demoLog "x" 99).2.1 (by decide)⟩

/-- **C5**: whenever the external generative-AI call fails, for whatever
reason, `processMessage` returns the fixed apologetic fallback text with
confidence `0.3` instead of propagating the error, so the chat reply
path always yields a (non-empty) response text. -/
theorem C5_ai_failure_fallback (oracle : String → Except String (String × ℕ))
    (msg e : String) (h : oracle msg = .error e) :
    processMessage oracle msg = ⟨fallbackResponse, mkRat 3 10, 0⟩
    ∧ (processMessage oracle msg).response = fallbackResponse
    ∧ fallbackResponse ≠ "" := by
  have h1 : processMessage oracle msg = ⟨fallbackResponse, mkRat 3 10, 0⟩ := by
    rw [processMessage, h]
  exact ⟨h1, by rw [h1], by decide⟩

theorem C5_ai_failure_fallback_witness :
    processMessage (fun _ => .error "timeout") "merhaba"
      = ⟨fallbackResponse, mkRat 3 10, 0⟩ :=
  (C5_ai_failure_fallback (fun _ => .error "timeout") "merhaba" "timeout" rfl).1

/-!  Helper lemmas for the confidence clamp. -/

theorem nudge_range (c : ℚ) (f : String)
    (h1 : mkRat 1 10 ≤ c) (h2 : c ≤ 1) :
    mkRat 1 10 ≤ nudge c f ∧ nudge c f ≤ 1 := by
  rw [nudge]
  by_cases hp : f = "positive"
  · rw [if_pos hp]
    refine ⟨le_min (by decide) ?_, min_le_left _ _⟩
    calc mkRat 1 10 ≤ c := h1
      _ ≤ qadd c (mkRat 1 20) := by
          rw [qadd_eq]
          exact le_add_of_nonneg_right (by decide)
  · rw [if_neg hp]
    by_cases hn : f = "negative"
    · rw [if_pos hn]
      refine ⟨le_max_left _ _, max_le (by decide) ?_⟩
      calc qsub c (mkRat 1 20) = c - mkRat 1 20 := qsub_eq c (mkRat 1 20)
        _ ≤ c := sub_le_self c (by decide)
        _ ≤ 1 := h2
    · rw [if_neg hn]
      exact ⟨h1, h2⟩

theorem updatePattern_preserves (kws : List String) (f : String) :
    ∀ kb : List Pattern,
      (∀ p ∈ kb, mkRat 1 10 ≤ p.confidence ∧ p.confidence ≤ 1) →
      ∀ p ∈ updatePattern kb kws f,
        mkRat 1 10 ≤ p.confidence ∧ p.confidence ≤ 1 := by
  intro kb
  induction kb with
  | nil =>
    intro _ p hp
    rw [updatePattern] at hp
    cases hp
  | cons q rest ih =>
    intro hinv p hp
    rw [updatePattern] at hp
    by_cases hk : q.keywords = kws
    · rw [if_pos hk] at hp
      rcases List.mem_cons.mp hp with hpq | hp'
      · rw [hpq]
        exact nudge_range q.confidence f
          (hinv q (List.mem_cons_self q rest)).1
          (hinv q (List.mem_cons_self q rest)).2
      · exact hinv p (List.mem_cons.mpr (Or.inr hp'))
    · rw [if_neg hk] at hp
      rcases List.mem_cons.mp hp with hpq | hp'
      · rw [hpq]
        exact hinv q (List.mem_cons_self q rest)
      · exact ih (fun x hx => hinv x (List.mem_cons.mpr (Or.inr hx))) p hp'

/-- **C6**: feedback nudging never drives a confidence out of
`[0.1, 1.0]`: positive feedback adds `0.05` capped at `1.0`, negative
feedback subtracts `0.05` floored at `0.1`, any other feedback changes
nothing, and folding any finite sequence of `updatePattern` operations
over a knowledge base whose confidences lie in `[0.1, 1.0]` keeps every
confidence in `[0.1, 1.0]`. -/
theorem C6_confidence_clamped :
    (∀ (c : ℚ) (f : String), mkRat 1 10 ≤ c → c ≤ 1 →
       mkRat 1 10 ≤ nudge c f ∧ nudge c f ≤ 1)
    ∧ (∀ c : ℚ, nudge c "positive" = min 1 (c + mkRat 1 20))
    ∧ (∀ c : ℚ, nudge c "negative" = max (mkRat 1 10) (c - mkRat 1 20))
    ∧ (∀ (c : ℚ) (f : String), f ≠ "positive" → f ≠ "negative" → nudge c f = c)
    ∧ (∀ (kb : List Pattern) (ops : List (List String × String)),
        (∀ p ∈ kb, mkRat 1 10 ≤ p.confidence ∧ p.confidence ≤ 1) →
        ∀ p ∈ ops.foldl (fun k o => updatePattern k o.1 o.2) kb,
          mkRat 1 10 ≤ p.confidence ∧ p.confidence ≤ 1) := by
  refine ⟨fun c f => nudge_range c f, ?_, ?_, ?_, ?_⟩
  · intro c
    rw [nudge, if_pos rfl, qadd_eq]
  · intro c
    rw [nudge, if_neg (by decide), if_pos rfl, qsub_eq]
  · intro c f hp hn
    rw [nudge, if_neg hp, if_neg hn]
  · intro kb ops
    induction ops generalizing kb with
    | nil =>
      intro hinv p hp
      exact hinv p hp
    | cons o rest ih =>
      intro hinv
      rw [List.foldl_cons]
      exact ih (updatePattern kb o.1 o.2) (updatePattern_preserves o.1 o.2 kb hinv)

theorem C6_confidence_clamped_witness :
    (mkRat 1 10 ≤ nudge (mkRat 1 2) "positive" ∧ nudge (mkRat 1 2) "positive" ≤ 1)
    ∧ ∀ p ∈ [([ "altın", "fiyat" ], "negative"),
             ([ "altın", "fiyat" ], "negative")].foldl
          (fun k (o : List String × String) => updatePattern k o.1 o.2) [r1Pattern],
        mkRat 1 10 ≤ p.confidence ∧ p.confidence ≤ 1 :=
  ⟨C6_confidence_clamped.1 (mkRat 1 2) "positive" (by decide) (by decide),
   C6_confidence_clamped.2.2.2.2 [r1Pattern]
     [(["altın", "fiyat"], "negative"), (["altın", "fiyat"], "negative")]
     (by decide)⟩

/-- **C3 counterexample**: the code does not distinguish the three
failure circumstances.  `verifyAuthCode` answers the same bare `false`,
and the verify-code endpoint answers the identical single 400 payload
`Invalid or expired code`, whether no code is pending, the pending code
expired (requested at time 0, submitted 6 minutes later), or the pending
unexpired code does not match — so no distinct `CodeNotFound` /
`CodeExpired` / `CodeMismatch` errors exist. -/
theorem C3_counterexample_single_failure :
    ((verifyCodeEndpoint (fun _ => none) (fun _ => none) 0
        "7216575814" "123456" "tok").1 = .error "Invalid or expired code")
    ∧ ((verifyCodeEndpoint (storeAuthCode (fun _ => none) "7216575814" "123456" 0)
          (fun _ => none) 360000 "7216575814" "123456" "tok").1
        = .error "Invalid or expired code")
    ∧ ((verifyCodeEndpoint (storeAuthCode (fun _ => none) "7216575814" "123456" 0)
          (fun _ => none) 0 "7216575814" "999999" "tok").1
        = .error "Invalid or expired code")
    ∧ ((verifyAuthCode (fun _ => none) 0 "7216575814" "123456").1
        = (verifyAuthCode (storeAuthCode (fun _ => none) "7216575814" "123456" 0)
            360000 "7216575814" "123456").1) :=
  ⟨rfl, rfl, rfl, rfl⟩

/-- **C3 amended**: `verifyCode` fails — with the one undifferentiated
failure (`false`, surfaced as the single 400 payload `Invalid or expired
code`) rather than distinct error codes — when no code is pending, when
the pending code is past its 5-minute expiry (a code requested at `t`
and submitted at `t + 6min` fails, and the expired entry is deleted),
and when a pending unexpired code does not match (entry kept); on
success it deletes the pending code, so a second verification with the
same code fails, and the endpoint answers a fresh session token mapped
to a 24-hour session. -/
theorem C3_verify_code_single_use (codes : AuthCodes) (sessions : Sessions)
    (now : ℕ) (id code token : String) :
    (codes id = none → verifyAuthCode codes now id code = (false, codes))
    ∧ (∀ a, codes id = some a → a.expires < now →
        (verifyAuthCode codes now id code).1 = false
        ∧ (verifyAuthCode codes now id code).2 id = none)
    ∧ (∀ a, codes id = some a → ¬ a.expires < now → a.code ≠ code →
        verifyAuthCode codes now id code = (false, codes))
    ∧ (∀ a, codes id = some a → ¬ a.expires < now → a.code = code →
        (verifyAuthCode codes now id code).1 = true
        ∧ (verifyAuthCode codes now id code).2 id = none
        ∧ (verifyAuthCode (verifyAuthCode codes now id code).2 now id code).1 = false)
    ∧ (∀ t c₀, (verifyAuthCode (storeAuthCode codes id c₀ t) (t + 360000) id c₀).1
        = false)
    ∧ ((verifyAuthCode codes now id code).1 = false →
        (verifyCodeEndpoint codes sessions now id code token).1
          = .error "Invalid or expired code")
    ∧ ((verifyAuthCode codes now id code).1 = true →
        ∃ s', (verifyCodeEndpoint codes sessions now id code token).1
            = .ok (token, s')
          ∧ s' token = some ⟨id, now, now + 24 * 60 * 60 * 1000⟩) := by
  refine ⟨?_, ?_, ?_, ?_, ?_, ?_, ?_⟩
  · intro h
    rw [verifyAuthCode, h]
  · intro a ha hexp
    constructor
    · simp only [verifyAuthCode, ha]
      rw [if_pos hexp]
    · simp only [verifyAuthCode, ha]
      rw [if_pos hexp]
      simp
  · intro a ha hnexp hne
    simp only [verifyAuthCode, ha]
    rw [if_neg hnexp, if_neg hne]
  · intro a ha hnexp hcode
    have hdel : (verifyAuthCode codes now id code).2 id = none := by
      simp only [verifyAuthCode, ha]
      rw [if_neg hnexp, if_pos hcode]
      simp
    refine ⟨?_, hdel, ?_⟩
    · simp only [verifyAuthCode, ha]
      rw [if_neg hnexp, if_pos hcode]
    · rw [verifyAuthCode, hdel]
  · intro t c₀
    have hs : storeAuthCode codes id c₀ t id = some ⟨c₀, t + 5 * 60 * 1000⟩ := by
      rw [storeAuthCode]
      simp
    simp only [verifyAuthCode, hs]
    rw [if_pos (show t + 5 * 60 * 1000 < t + 360000 by omega)]
  · intro h
    simp [verifyCodeEndpoint, h]
  · intro h
    refine ⟨fun k =>
        if k = token then some ⟨id, now, now + 24 * 60 * 60 * 1000⟩
        else sessions k, ?_, by simp⟩
    simp [verifyCodeEndpoint, h]

theorem C3_verify_code_single_use_witness :
    (verifyAuthCode (storeAuthCode (fun _ => none) "7216575814" "123456" 0) 1000
        "7216575814" "123456").1 = true
    ∧ (verifyAuthCode (storeAuthCode (fun _ => none) "7216575814" "123456" 0) 1000
        "7216575814" "123456").2 "7216575814" = none
    ∧ (verifyAuthCode
        (verifyAuthCode (storeAuthCode (fun _ => none) "7216575814" "123456" 0) 1000
          "7216575814" "123456").2 1000 "7216575814" "123456").1 = false :=
  (C3_verify_code_single_use
      (storeAuthCode (fun _ => none) "7216575814" "123456" 0)
      (fun _ => none) 1000 "7216575814" "123456" "tok").2.2.2.1
    ⟨"123456", 300000⟩ rfl (by decide) rfl

/-- **C4 (code bug)**: the send handler does a read-modify-write of the
whole chat log, so when two sends for the same conversation both read
the log before either writes, the second write is the final file
contents and the first send's messages are silently lost; the same two
sends run sequentially keep both.  The no-lost-update property fails on
the interleaved execution. -/
theorem C4_interleaved_sends_lose_first_update :
    ((∀ m ∈ (sendCompute [] (mkRat 7 10) (fun _ => .error "down") [] "c1" "m2"
        3 4).log, m.content ≠ "m1")
     ∧ (∃ m ∈ (sendCompute [] (mkRat 7 10) (fun _ => .error "down") [] "c1" "m2"
        3 4).log, m.content = "m2"))
    ∧ ((∃ m ∈ (sendCompute [] (mkRat 7 10) (fun _ => .error "down")
          (sendCompute [] (mkRat 7 10) (fun _ => .error "down") [] "c1" "m1" 1 2).log
          "c1" "m2" 3 4).log, m.content = "m1")
       ∧ (∃ m ∈ (sendCompute [] (mkRat 7 10) (fun _ => .error "down")
          (sendCompute [] (mkRat 7 10) (fun _ => .error "down") [] "c1" "m1" 1 2).log
          "c1" "m2" 3 4).log, m.content = "m2")) := by
  decide

/-- **C8**: the takeover handler fails with `Unauthorized` and touches
no state when the bearer token names no session or the session's expiry
has passed; with a valid session it overwrites the conversation's single
takeover record with a fresh active one (so repeated calls keep at most
one record per conversation), leaves other conversations' records
untouched, and appends exactly one admin greeting message to the log. -/
theorem C8_takeover_requires_session (sessions : Sessions) (takeovers : Takeovers)
    (chatLog : List Message) (now : ℕ) (token conversationId : String) :
    (sessions token = none →
       takeover sessions takeovers chatLog now token conversationId
         = .error "Unauthorized")
    ∧ (∀ s, sessions token = some s → s.expires < now →
        takeover sessions takeovers chatLog now token conversationId
          = .error "Unauthorized")
    ∧ (∀ s, sessions token = some s → ¬ s.expires < now →
        ∃ t', takeover sessions takeovers chatLog now token conversationId
            = .ok (t', chatLog ++ [takeoverGreeting conversationId now])
          ∧ t' conversationId = some ⟨now, s.telegramId, "active"⟩
          ∧ ∀ d, d ≠ conversationId → t' d = takeovers d) := by
  refine ⟨?_, ?_, ?_⟩
  · intro h
    rw [takeover, h]
  · intro s hs hexp
    simp only [takeover, hs]
    rw [if_pos hexp]
  · intro s hs hnexp
    refine ⟨fun k =>
        if k = conversationId then some ⟨now, s.telegramId, "active"⟩
        else takeovers k, ?_, by simp, ?_⟩
    · simp only [takeover, hs]
      rw [if_neg hnexp]
    · intro d hd
      simp [hd]

theorem C8_takeover_requires_session_witness :
    (takeover (fun t => if t = "tok" then some ⟨"7216575814", 0, 100⟩ else none)
        (fun _ => none) [] 50 "bad" "conv" = .error "Unauthorized")
    ∧ ∃ t', takeover (fun t => if t = "tok" then some ⟨"7216575814", 0, 100⟩ else none)
          (fun _ => none) [] 50 "tok" "conv"
        = .ok (t', [] ++ [takeoverGreeting "conv" 50])
      ∧ t' "conv" = some ⟨50, "7216575814", "active"⟩
      ∧ ∀ d, d ≠ "conv" → t' d = (fun _ => none : Takeovers) d :=
  ⟨(C8_takeover_requires_session
      (fun t => if t = "tok" then some ⟨"7216575814", 0, 100⟩ else none)
      (fun _ => none) [] 50 "bad" "conv").1 rfl,
   (C8_takeover_requires_session
      (fun t => if t = "tok" then some ⟨"7216575814", 0, 100⟩ else none)
      (fun _ => none) [] 50 "tok" "conv").2.2 ⟨"7216575814", 0, 100⟩ rfl (by decide)⟩

/-- **C9**: for every send, the confidence stored in the appended
response message and echoed in the JSON reply is the knowledge matcher's
confidence when it is non-zero and `0.85` when it is zero (the JS
`botAnalysis.confidence || 0.85`); it is the same for every AI oracle,
so the escalation processor's own confidence (`0.85` on success, `0.3`
on fallback) is never stored in the log nor returned to the client. -/
theorem C9_stored_confidence_is_matcher_confidence (kb : List Pattern) (thr : ℚ)
    (oracle oracle₂ : String → Except String (String × ℕ))
    (snapshot : List Message) (cid msg : String) (tsU tsB : ℕ) :
    (sendCompute kb thr oracle snapshot cid msg tsU tsB).confidence
        = (if (analyzeMessage kb thr msg).confidence = 0 then mkRat 17 20
           else (analyzeMessage kb thr msg).confidence)
    ∧ (∃ u b, (sendCompute kb thr oracle snapshot cid msg tsU tsB).log
          = snapshot ++ [u, b]
        ∧ b.confidence = some (if (analyzeMessage kb thr msg).confidence = 0
            then mkRat 17 20 else (analyzeMessage kb thr msg).confidence)
        ∧ u.role = "user")
    ∧ (sendCompute kb thr oracle₂ snapshot cid msg tsU tsB).confidence
        = (sendCompute kb thr oracle snapshot cid msg tsU tsB).confidence :=
  ⟨rfl, ⟨_, _, rfl, rfl, rfl⟩, rfl⟩

/-- The invariant of a daily analytics bucket: the total is the sum of
the per-tier counters and every counter is non-negative. -/
def bucketInv (b : Bucket) : Prop :=
  b.total = b.chatbot + b.ai + b.admin
  ∧ 0 ≤ b.total ∧ 0 ≤ b.chatbot ∧ 0 ≤ b.ai ∧ 0 ≤ b.admin

instance (b : Bucket) : Decidable (bucketInv b) :=
  inferInstanceAs (Decidable (b.total = b.chatbot + b.ai + b.admin
    ∧ 0 ≤ b.total ∧ 0 ≤ b.chatbot ∧ 0 ≤ b.ai ∧ 0 ≤ b.admin))

theorem bumpRole_inv (b : Bucket) (role : String)
    (hrole : role = "chatbot" ∨ role = "ai" ∨ role = "admin")
    (hinv : bucketInv b) :
    bucketInv (bumpRole { b with total := b.total + 1 } role)
    ∧ b.total ≤ (bumpRole { b with total := b.total + 1 } role).total
    ∧ b.chatbot ≤ (bumpRole { b with total := b.total + 1 } role).chatbot
    ∧ b.ai ≤ (bumpRole { b with total := b.total + 1 } role).ai
    ∧ b.admin ≤ (bumpRole { b with total := b.total + 1 } role).admin := by
  obtain ⟨h1, h2, h3, h4, h5⟩ := hinv
  rcases hrole with hr | hr | hr <;> subst hr <;>
    simp [bucketInv, bumpRole] <;> omega

theorem updateAnalytics_preserves (analytics : Analytics) (today role : String)
    (hrole : role = "chatbot" ∨ role = "ai" ∨ role = "admin")
    (hinv : ∀ d b, analytics d = some b → bucketInv b) :
    ∀ d b, updateAnalytics analytics today role d = some b → bucketInv b := by
  intro d b hb
  simp only [updateAnalytics] at hb
  by_cases hd : d = today
  · rw [if_pos hd] at hb
    have hinv₀ : bucketInv ((analytics today).getD ⟨0, 0, 0, 0⟩) := by
      rcases he : analytics today with _ | bb
      · decide
      · exact hinv today bb he
    rw [← Option.some.inj hb]
    exact (bumpRole_inv _ role hrole hinv₀).1
  · rw [if_neg hd] at hb
    exact hinv d b hb

/-- **C10**: the daily analytics buckets created and updated by the send
and admin-respond handlers keep `total = chatbot + ai + admin` with all
counters non-negative; an update never decreases any counter of any
bucket; the send handler only ever records the roles `chatbot` or `ai`
(the respond handler records the literal `admin`); and any sequence of
such updates starting from the empty table keeps every bucket
invariant. -/
theorem C10_daily_bucket_invariant :
    (∀ (analytics : Analytics) (today role : String),
       (role = "chatbot" ∨ role = "ai" ∨ role = "admin") →
       (∀ d b, analytics d = some b → bucketInv b) →
       ((∀ d b, updateAnalytics analytics today role d = some b → bucketInv b)
        ∧ (∀ d b, analytics d = some b →
            ∃ b', updateAnalytics analytics today role d = some b'
              ∧ b.total ≤ b'.total ∧ b.chatbot ≤ b'.chatbot
              ∧ b.ai ≤ b'.ai ∧ b.admin ≤ b'.admin)))
    ∧ (∀ kb thr oracle snapshot cid msg tsU tsB,
        (sendCompute kb thr oracle snapshot cid msg tsU tsB).role = "chatbot"
        ∨ (sendCompute kb thr oracle snapshot cid msg tsU tsB).role = "ai")
    ∧ (∀ (ops : List (String × String)) (start : Analytics),
        (∀ o ∈ ops, o.2 = "chatbot" ∨ o.2 = "ai" ∨ o.2 = "admin") →
        (∀ d b, start d = some b → bucketInv b) →
        ∀ d b, (ops.foldl (fun m (o : String × String) =>
            updateAnalytics m o.1 o.2) start) d = some b → bucketInv b) := by
  refine ⟨?_, ?_, ?_⟩
  · intro analytics today role hrole hinv
    refine ⟨updateAnalytics_preserves analytics today role hrole hinv, ?_⟩
    intro d b hb
    by_cases hd : d = today
    · have hgd : (analytics today).getD ⟨0, 0, 0, 0⟩ = b := by
        rw [hd] at hb
        rw [hb]
        rfl
      refine ⟨bumpRole { b with total := b.total + 1 } role, ?_, ?_, ?_, ?_, ?_⟩
      · simp only [updateAnalytics]
        rw [if_pos hd, hgd]
      · exact (bumpRole_inv b role hrole (hinv d b hb)).2.1
      · exact (bumpRole_inv b role hrole (hinv d b hb)).2.2.1
      · exact (bumpRole_inv b role hrole (hinv d b hb)).2.2.2.1
      · exact (bumpRole_inv b role hrole (hinv d b hb)).2.2.2.2
    · refine ⟨b, ?_, le_rfl, le_rfl, le_rfl, le_rfl⟩
      simp only [updateAnalytics]
      rw [if_neg hd]
      exact hb
  · intro kb thr oracle snapshot cid msg tsU tsB
    show (chooseResponse (analyzeMessage kb thr msg)
        (processMessage oracle msg).response).2 = "chatbot"
      ∨ (chooseResponse (analyzeMessage kb thr msg)
        (processMessage oracle msg).response).2 = "ai"
    cases h1 : (analyzeMessage kb thr msg).shouldEscalate <;>
      cases h2 : (analyzeMessage kb thr msg).matched <;>
        simp [chooseResponse, h1, h2]
  · intro ops
    induction ops with
    | nil =>
      intro start _ hstart d b hb
      exact hstart d b hb
    | cons o rest ih =>
      intro start hall hstart d b hb
      rw [List.foldl_cons] at hb
      exact ih (updateAnalytics start o.1 o.2)
        (fun x hx => hall x (List.mem_cons.mpr (Or.inr hx)))
        (updateAnalytics_preserves start o.1 o.2
          (hall o (List.mem_cons_self o rest)) hstart) d b hb

theorem C10_daily_bucket_invariant_witness :
    bucketInv ⟨1, 0, 0, 1⟩
    ∧ ∃ b', updateAnalytics
          (fun d => if d = "2025-01-01" then some ⟨1, 0, 0, 1⟩ else none)
          "2025-01-01" "ai" "2025-01-01" = some b'
        ∧ (1 : ℤ) ≤ b'.total ∧ (0 : ℤ) ≤ b'.chatbot
        ∧ (0 : ℤ) ≤ b'.ai ∧ (1 : ℤ) ≤ b'.admin :=
  ⟨(C10_daily_bucket_invariant.1 (fun _ => none) "2025-01-01" "admin"
      (Or.inr (Or.inr rfl)) (fun _ b hb => Option.noConfusion hb)).1
      "2025-01-01" ⟨1, 0, 0, 1⟩ rfl,
   (C10_daily_bucket_invariant.1
      (fun d => if d = "2025-01-01" then some ⟨1, 0, 0, 1⟩ else none)
      "2025-01-01" "ai"
      (Or.inr (Or.inl rfl))
      (fun d b hb => by
        have hb' : (if d = "2025-01-01"
            then some (⟨1, 0, 0, 1⟩ : Bucket) else none) = some b := hb
        by_cases hd : d = "2025-01-01"
        · rw [if_pos hd] at hb'
          rw [← Option.some.inj hb']
          decide
        · rw [if_neg hd] at hb'
          exact Option.noConfusion hb')).2
      "2025-01-01" ⟨1, 0, 0, 1⟩ (by simp)⟩

end HayDay
